import Mathlib

/-!
Shallow embedding of the iRISC assembler (src/irisc_asm.py) and proofs of the
specification claims.  Text is modelled as lists of characters; the Python
string helpers used by the assembler (split, strip, startswith, int parsing)
are re-implemented structurally below so that every definition evaluates
inside the kernel.  Python integers are modelled as Int (with Nat where the
source guarantees non-negativity); Python AssertionError / KeyError /
ValueError / IndexError / struct.error failure sites are mapped to the error
taxonomy named by the specification.
-/

set_option linter.unusedVariables false
set_option linter.unnecessarySeqFocus false

namespace IriscAsm

/-- Text operand: Python strings as character lists. -/
abbrev Str := List Char

/-- Failure kinds raised by the assembler, one per failure site of the source
(the names follow the taxonomy of the specification; parse failures that the
taxonomy does not name get their own constructors). -/
inductive AsmError where
  | RegisterFormatError
  | FieldRangeError
  | AlignmentError
  | LabelRedefinitionError
  | UnknownMnemonicError
  | UnknownFieldError
  | OperandCountError
  | NumberFormatError
  | LineFormatError
  | LayoutFormatError
  | IndexError
  | PackOverflowError
deriving DecidableEq

/-- Python str.strip / int() whitespace (ASCII subset). -/
def isSpaceChar (c : Char) : Bool :=
  c = ' ' || c = '\t' || c = '\n' || c = '\r' || c = '\x0b' || c = '\x0c'

/-- Python s.strip(): drop whitespace from both ends. -/
def strip (s : Str) : Str :=
  ((s.dropWhile isSpaceChar).reverse.dropWhile isSpaceChar).reverse

/-- Python s.split(sep) for a one-character separator: the empty string
yields one empty piece, n separators yield n+1 pieces. -/
def splitChar (sep : Char) : Str → List Str
  | [] => [[]]
  | c :: rest =>
    if c = sep then [] :: splitChar sep rest
    else
      match splitChar sep rest with
      | [] => [[c]]
      | h :: t => (c :: h) :: t

/-- Python line.split(space, 1) followed by unpacking into exactly two
pieces: none when the string holds no space at all. -/
def breakAtSpace : Str → Option (Str × Str)
  | [] => none
  | c :: rest =>
    if c = ' ' then some ([], rest)
    else
      match breakAtSpace rest with
      | none => none
      | some (pre, post) => some (c :: pre, post)

/-- Python line.startswith of a hash character. -/
def startsHash : Str → Bool
  | '#' :: _ => true
  | _ => false

/-- Decimal digit value. -/
def digitVal? (c : Char) : Option Nat :=
  if '0' ≤ c ∧ c ≤ '9' then some (c.toNat - ('0').toNat) else none

def natOfDigitsAux : Nat → Str → Option Nat
  | acc, [] => some acc
  | acc, c :: rest =>
    match digitVal? c with
    | some d => natOfDigitsAux (10 * acc + d) rest
    | none => none

/-- A non-empty all-decimal-digit string read as a number. -/
def natOfDigits? (s : Str) : Option Nat :=
  match s with
  | [] => none
  | _ => natOfDigitsAux 0 s

/-- Python int(v) on the literals this assembler meets: surrounding
whitespace, an optional sign, then decimal digits (digit-group underscores,
which no source of this repository uses, are not modelled). -/
def pyIntDec? (s : Str) : Option Int :=
  match strip s with
  | '-' :: rest => (natOfDigits? rest).map (fun n => -(n : Int))
  | '+' :: rest => (natOfDigits? rest).map (fun n => (n : Int))
  | t => (natOfDigits? t).map (fun n => (n : Int))

/-- Hexadecimal digit value. -/
def hexDigitVal? (c : Char) : Option Nat :=
  if '0' ≤ c ∧ c ≤ '9' then some (c.toNat - ('0').toNat)
  else if 'a' ≤ c ∧ c ≤ 'f' then some (c.toNat - ('a').toNat + 10)
  else if 'A' ≤ c ∧ c ≤ 'F' then some (c.toNat - ('A').toNat + 10)
  else none

def natOfHexAux : Nat → Str → Option Nat
  | acc, [] => some acc
  | acc, c :: rest =>
    match hexDigitVal? c with
    | some d => natOfHexAux (16 * acc + d) rest
    | none => none

def natOfHexDigits? (s : Str) : Option Nat :=
  match s with
  | [] => none
  | _ => natOfHexAux 0 s

/-- The optional 0x / 0X prefix accepted by Python int(v, 16). -/
def dropHexPrefix : Str → Str
  | '0' :: 'x' :: rest => rest
  | '0' :: 'X' :: rest => rest
  | s => s

/-- Python int(v, 16): whitespace, optional sign, optional 0x prefix,
then non-empty hexadecimal digits. -/
def pyIntHex? (s : Str) : Option Int :=
  match strip s with
  | '-' :: rest => (natOfHexDigits? (dropHexPrefix rest)).map (fun n => -(n : Int))
  | '+' :: rest => (natOfHexDigits? (dropHexPrefix rest)).map (fun n => (n : Int))
  | t => (natOfHexDigits? (dropHexPrefix t)).map (fun n => (n : Int))

/-- Source dec_or_hex: try int(v), fall back to int(v, 16); both ValueError
paths give NumberFormatError. -/
def dec_or_hex (s : Str) : Except AsmError Int :=
  match pyIntDec? s with
  | some v => .ok v
  | none =>
    match pyIntHex? s with
    | some v => .ok v
    | none => .error .NumberFormatError

/-- Source assert_sbits: signed n-bit range check, returning the value
masked to its unsigned n-bit pattern (Python v AND (1 shl n) - 1, which on
arbitrary integers is v mod 2^n). -/
def assert_sbits (v : Int) (n : Nat) : Except AsmError Nat :=
  if -(2 ^ (n - 1) : Int) ≤ v ∧ v < (2 ^ (n - 1) : Int) then
    .ok ((v % (2 ^ n)).toNat)
  else .error .FieldRangeError

/-- Source assert_ubits: unsigned n-bit range check, returning the value. -/
def assert_ubits (v : Int) (n : Nat) : Except AsmError Nat :=
  if 0 ≤ v ∧ v < (2 ^ n : Int) then .ok v.toNat
  else .error .FieldRangeError

/-- Label table: Python dict from label name to address, modelled as an
association list with unique keys kept in insertion order. -/
abbrev LabelMap := List (Str × Nat)

/-- Python dict assignment m[k] = v: update in place when the key exists,
append otherwise. -/
def dictInsert (m : LabelMap) (k : Str) (v : Nat) : LabelMap :=
  match m with
  | [] => [(k, v)]
  | (k2, v2) :: rest =>
    if k2 = k then (k2, v) :: rest else (k2, v2) :: dictInsert rest k v

/-- Python m.get(k, 0). -/
def labelsGet (m : LabelMap) (k : Str) : Nat :=
  match m.lookup k with
  | some v => v
  | none => 0

/-- Source class Context: labels, base, code (one assembly pass of state).
The constructor copies the caller's label table (line 123 of the source,
self.labels = dict(labels)). -/
structure Context where
  labels : LabelMap
  base : Nat
  code : List Nat
deriving DecidableEq

/-- Source Context.address property: base + len(code). -/
def Context.address (ctx : Context) : Nat :=
  ctx.base + ctx.code.length

/-- struct.pack of one big-endian 32-bit word as four bytes. -/
def be32 (inst : Nat) : List Nat :=
  [inst / 2 ^ 24 % 256, inst / 2 ^ 16 % 256, inst / 2 ^ 8 % 256, inst % 256]

/-- Source Context.emit: append struct.pack of the word; struct.error when
the value does not fit an unsigned 32-bit integer. -/
def Context.emit (ctx : Context) (inst : Nat) : Except AsmError Context :=
  if inst < 2 ^ 32 then .ok { ctx with code := ctx.code ++ be32 inst }
  else .error .PackOverflowError

/-- Source reg: leading character must be the letter r (AssertionError,
named RegisterFormatError by the spec), the rest parses with int() and must
fit 5 unsigned bits.  An empty operand indexes past the end (IndexError). -/
def reg (ctx : Context) (s : Str) : Except AsmError Nat :=
  match s with
  | [] => .error .IndexError
  | c :: rest =>
    if c = 'r' then
      match pyIntDec? rest with
      | some v => assert_ubits v 5
      | none => .error .NumberFormatError
    else .error .RegisterFormatError

/-- Source field rs: register number shifted to bit 21. -/
def rs (ctx : Context) (arg : Str) : Except AsmError Nat :=
  (reg ctx arg).map (fun n => n <<< 21)

/-- Source field rd: register number shifted to bit 16. -/
def rd (ctx : Context) (arg : Str) : Except AsmError Nat :=
  (reg ctx arg).map (fun n => n <<< 16)

/-- Source field rt: register number shifted to bit 11. -/
def rt (ctx : Context) (arg : Str) : Except AsmError Nat :=
  (reg ctx arg).map (fun n => n <<< 11)

/-- Source field cmpop: 5 unsigned bits shifted to bit 16. -/
def cmpop (ctx : Context) (arg : Str) : Except AsmError Nat :=
  match dec_or_hex arg with
  | .error e => .error e
  | .ok v => (assert_ubits v 5).map (fun n => n <<< 16)

/-- Source field simm16: signed 16-bit two's-complement pattern, no shift. -/
def simm16 (ctx : Context) (arg : Str) : Except AsmError Nat :=
  match dec_or_hex arg with
  | .error e => .error e
  | .ok v => assert_sbits v 16

/-- Source field uimm16: 16 unsigned bits, no shift. -/
def uimm16 (ctx : Context) (arg : Str) : Except AsmError Nat :=
  match dec_or_hex arg with
  | .error e => .error e
  | .ok v => assert_ubits v 16

/-- Source field opcode: 6 unsigned bits shifted to bit 26. -/
def opcode (ctx : Context) (arg : Str) : Except AsmError Nat :=
  match dec_or_hex arg with
  | .error e => .error e
  | .ok v => (assert_ubits v 6).map (fun n => n <<< 26)

/-- Source field jmpop: 2 unsigned bits, no shift. -/
def jmpop (ctx : Context) (arg : Str) : Except AsmError Nat :=
  match dec_or_hex arg with
  | .error e => .error e
  | .ok v => assert_ubits v 2

/-- Source field rel24: displacement from the current address to the label
(unknown labels default to address 0), which must be 4-byte aligned
(Python rel AND 3 is rel mod 4, AssertionError named AlignmentError),
arithmetically shifted right by two (floor division) and checked as a
signed 24-bit value. -/
def rel24 (ctx : Context) (arg : Str) : Except AsmError Nat :=
  if ((labelsGet ctx.labels arg : Int) - (ctx.address : Int)) % 4 = 0 then
    assert_sbits (((labelsGet ctx.labels arg : Int) - (ctx.address : Int)).fdiv 4) 24
  else .error .AlignmentError

/-- Source field rel16: as rel24 with a signed 16-bit check. -/
def rel16 (ctx : Context) (arg : Str) : Except AsmError Nat :=
  if ((labelsGet ctx.labels arg : Int) - (ctx.address : Int)) % 4 = 0 then
    assert_sbits (((labelsGet ctx.labels arg : Int) - (ctx.address : Int)).fdiv 4) 16
  else .error .AlignmentError

/-- Source field off11: 11 unsigned bits, no shift. -/
def off11 (ctx : Context) (arg : Str) : Except AsmError Nat :=
  match dec_or_hex arg with
  | .error e => .error e
  | .ok v => assert_ubits v 11

/-- Source field bitsel: 5 unsigned bits shifted to bit 16. -/
def bitsel (ctx : Context) (arg : Str) : Except AsmError Nat :=
  match dec_or_hex arg with
  | .error e => .error e
  | .ok v => (assert_ubits v 5).map (fun n => n <<< 16)

/-- Source field twobits: 2 unsigned bits, no shift. -/
def twobits (ctx : Context) (arg : Str) : Except AsmError Nat :=
  match dec_or_hex arg with
  | .error e => .error e
  | .ok v => assert_ubits v 2

/-- Source field funct: 11 unsigned bits, no shift. -/
def funct (ctx : Context) (arg : Str) : Except AsmError Nat :=
  match dec_or_hex arg with
  | .error e => .error e
  | .ok v => assert_ubits v 11

/-- The field registry populated by the source decorators, keyed by the
field name appearing in a layout string. -/
def fields (name : Str) : Option (Context → Str → Except AsmError Nat) :=
  if name = ("rs").data then some rs
  else if name = ("rd").data then some rd
  else if name = ("rt").data then some rt
  else if name = ("cmpop").data then some cmpop
  else if name = ("simm16").data then some simm16
  else if name = ("uimm16").data then some uimm16
  else if name = ("opcode").data then some opcode
  else if name = ("jmpop").data then some jmpop
  else if name = ("rel24").data then some rel24
  else if name = ("rel16").data then some rel16
  else if name = ("off11").data then some off11
  else if name = ("bitsel").data then some bitsel
  else if name = ("twobits").data then some twobits
  else if name = ("funct").data then some funct
  else none

/-- The loop body of the source st closure: walk the layout tokens of one
mnemonic, each token field:literal or field: (the latter pops the next
caller operand, IndexError named OperandCountError when none is left),
look the field up (KeyError named UnknownFieldError) and OR its
contribution into the accumulator. -/
def stLoop (ctx : Context) : List Str → List Str → Nat → Except AsmError Nat
  | [], _, inst => .ok inst
  | part :: parts, args, inst =>
    match splitChar ':' part with
    | [fname, arg] =>
      if arg.isEmpty then
        match args with
        | [] => .error .OperandCountError
        | a :: args2 =>
          match fields fname with
          | none => .error .UnknownFieldError
          | some f =>
            match f ctx a with
            | .error e => .error e
            | .ok c => stLoop ctx parts args2 (inst ||| c)
      else
        match fields fname with
        | none => .error .UnknownFieldError
        | some f =>
          match f ctx arg with
          | .error e => .error e
          | .ok c => stLoop ctx parts args (inst ||| c)
    | _ => .error .LayoutFormatError

/-- Source st: build the instruction word from the layout string and emit
it as four big-endian bytes. -/
def st (layout : Str) (ctx : Context) (args : List Str) : Except AsmError Context :=
  match stLoop ctx (splitChar ' ' layout) args 0 with
  | .error e => .error e
  | .ok inst => ctx.emit inst

/-- Source lbl_func: the lbl pseudo-instruction; a known name must already
map to the current address (AssertionError named LabelRedefinitionError),
an unknown name is bound to the current address; no bytes are emitted. -/
def lbl_func (ctx : Context) (args : List Str) : Except AsmError Context :=
  match args with
  | [] => .error .IndexError
  | name :: _ =>
    match ctx.labels.lookup name with
    | some a => if a = ctx.address then .ok ctx else .error .LabelRedefinitionError
    | none => .ok { ctx with labels := dictInsert ctx.labels name ctx.address }

/-- The source instructions dict: mnemonic to encode procedure. -/
def instructions (op : Str) : Option (Context → List Str → Except AsmError Context) :=
  if op = ("unk.r").data then some (st (("opcode: rd: rs: rt: funct:").data))
  else if op = ("addi").data then some (st (("opcode:0x00 rd: rs: simm16:").data))
  else if op = ("set0").data then some (st (("opcode:0x06 rd: rs: uimm16:").data))
  else if op = ("set1").data then some (st (("opcode:0x07 rd: rs: uimm16:").data))
  else if op = ("set3").data then some (st (("opcode:0x08 rd: rs: uimm16:").data))
  else if op = ("set2").data then some (st (("opcode:0x09 rd: rs: uimm16:").data))
  else if op = ("call").data then some (st (("opcode:0x25 jmpop:0x0 rel24:").data))
  else if op = ("jump").data then some (st (("opcode:0x25 jmpop:0x1 rel24:").data))
  else if op = ("alu.r").data then some (st (("opcode:0x3f funct: rd: rs: rt:").data))
  else if op = ("add").data then some (st (("opcode:0x3f rd: rs: rt: funct:0x000").data))
  else if op = ("sub").data then some (st (("opcode:0x3f rd: rs: rt: funct:0x004").data))
  else if op = ("subs").data then some (st (("opcode:0x3f rd: rs: rt: funct:0x005").data))
  else if op = ("alur.0xb").data then some (st (("opcode:0x3f rd: rs: rt: funct:00b").data))
  else if op = ("b.t").data then some (st (("opcode:0x28 cmpop: rs: rel16:").data))
  else if op = ("b.f").data then some (st (("opcode:0x29 cmpop: rs: rel16:").data))
  else if op = ("b.set").data then some (st (("opcode:0x2a rs: bitsel: rel16:").data))
  else if op = ("b.clr").data then some (st (("opcode:0x2b rs: bitsel: rel16:").data))
  else if op = ("ld.d").data then some (st (("opcode:0x19 rd: rs: rt: off11: twobits:0x2").data))
  else if op = ("st.d").data then some (st (("opcode:0x1b rd: rs: rt: off11: twobits:0x2").data))
  else if op = ("st.q").data then some (st (("opcode:0x1e rd: rs: rt: off11: twobits:").data))
  else if op = ("ret.d").data then some (st (("opcode:0x3f rd: rs: rt: funct:0x02d").data))
  else if op = ("lbl").data then some lbl_func
  else none

/-- One iteration of the source assemble_pass loop: strip the line, skip it
when blank or a hash comment, split mnemonic from the comma-separated
operand list (ValueError named LineFormatError when the line holds no
space), look the mnemonic up (KeyError named UnknownMnemonicError) and run
its encode procedure. -/
def processLine (ctx : Context) (line : Str) : Except AsmError Context :=
  if (strip line).isEmpty || startsHash (strip line) then .ok ctx
  else
    match breakAtSpace (strip line) with
    | none => .error .LineFormatError
    | some (op, rest) =>
      match instructions op with
      | none => .error .UnknownMnemonicError
      | some f => f ctx ((splitChar ',' (strip rest)).map strip)

/-- The source assemble_pass loop over a list of lines. -/
def runLines : Context → List Str → Except AsmError Context
  | ctx, [] => .ok ctx
  | ctx, l :: ls =>
    match processLine ctx l with
    | .error e => .error e
    | .ok ctx2 => runLines ctx2 ls

/-- Source assemble_pass: split the source on newlines and process each
line in order against the context. -/
def assemble_pass (ctx : Context) (source : Str) : Except AsmError Context :=
  runLines ctx (splitChar '\n' source)

/-- Source assemble: pass 1 from an empty label table, pass 2 from a fresh
context seeded with the labels of pass 1; the bytes of pass 2 are the
result. -/
def assemble (source : Str) (base : Nat) : Except AsmError (List Nat) :=
  match assemble_pass { labels := [], base := base, code := [] } source with
  | .error e => .error e
  | .ok ctx1 =>
    match assemble_pass { labels := ctx1.labels, base := base, code := [] } source with
    | .error e => .error e
    | .ok ctx2 => .ok ctx2.code

/-- Python evaluates default arguments once, so Context.init (source line
122, labels defaulting to an empty dict) shares one dict object across
every call that omits the labels argument; defaultLabels models the
contents of that shared object when assemble is entered, and the second
component of the result models its contents when assemble returns.  Line
123, self.labels = dict(labels), copies the argument into the new context,
so the in-pass writes of lbl_func reach only the copy and the shared
object is handed back with the contents it came with. -/
def assembleG (defaultLabels : LabelMap) (source : Str) (base : Nat) :
    Except AsmError (List Nat) × LabelMap :=
  (match assemble_pass { labels := defaultLabels, base := base, code := [] } source with
   | .error e => .error e
   | .ok ctx1 =>
     match assemble_pass { labels := ctx1.labels, base := base, code := [] } source with
     | .error e => .error e
     | .ok ctx2 => .ok ctx2.code,
   defaultLabels)

/-- Spec-side count predicate for claim C3, written from the words of the
claim: a line counts when, after trimming, it is non-blank, is not a hash
comment, and its mnemonic (the text before the first space) is not lbl. -/
def specEmitted (line : Str) : Bool :=
  !((strip line).isEmpty || startsHash (strip line)) &&
    (match breakAtSpace (strip line) with
     | some (op, _) => op ≠ ("lbl").data
     | none => true)

/-- The i-th big-endian 32-bit word of a byte sequence (spec-side view used
to state claims about encoded fields). -/
def bytesWord (bs : List Nat) (i : Nat) : Nat :=
  (bs.getD (4 * i) 0) <<< 24 ||| (bs.getD (4 * i + 1) 0) <<< 16 |||
    (bs.getD (4 * i + 2) 0) <<< 8 ||| bs.getD (4 * i + 3) 0

/-- The concrete program of claim C1: a jump over three addi instructions
to a trailing label. -/
def c1src : Str :=
  ("jump end\naddi r1, r1, 1\naddi r1, r1, 1\naddi r1, r1, 1\nlbl end").data

/-- The bytes the assembler produces for c1src at base 0. -/
def c1bytes : List Nat :=
  [0x94, 0x00, 0x00, 0x05,
   0x00, 0x21, 0x00, 0x01,
   0x00, 0x21, 0x00, 0x01,
   0x00, 0x21, 0x00, 0x01]

/-- The concrete program of claim C2. -/
def c2src : Str :=
  ("addi r1, r2, 10\nlbl loop\naddi r1, r1, -1\nb.t 0, r1, loop").data

/-- The bytes the assembler produces for c2src at base 0. -/
def c2bytes : List Nat :=
  [0x00, 0x41, 0x00, 0x0A,
   0x00, 0x21, 0xFF, 0xFF,
   0xA0, 0x20, 0xFF, 0xFF]

/-- The concrete program of claim C10: a forward reference whose label is
declared, so that only the pass-1 placeholder lookup can fail. -/
def c10src : Str := ("jump end\nlbl end").data

/-- Whether a pass result is a success. -/
def passOk : Except AsmError Context → Bool
  | .ok _ => true
  | .error _ => false

/-- The concrete program of the C3 witness: one emitted instruction, a
label, a comment, a blank line and another emitted instruction. -/
def c3src : Str :=
  ("addi r1, r1, 1\nlbl x\n# note\n\nsub r2, r3, r4").data

/-- The bytes the assembler produces for c3src at base 0. -/
def c3bytes : List Nat :=
  [0x00, 0x21, 0x00, 0x01,
   0xFC, 0x62, 0x20, 0x04]

theorem instructions_lbl : instructions (("lbl").data) = some lbl_func := rfl

set_option maxHeartbeats 1000000 in
theorem instructions_st (op : Str) (f : Context → List Str → Except AsmError Context)
    (hop : op ≠ ("lbl").data) (h : instructions op = some f) :
    ∃ l, f = st l := by
  unfold instructions at h
  by_cases h1 : op = ("unk.r").data
  case pos => rw [if_pos h1] at h; injection h with hx; exact ⟨_, hx.symm⟩
  rw [if_neg h1] at h
  by_cases h2 : op = ("addi").data
  case pos => rw [if_pos h2] at h; injection h with hx; exact ⟨_, hx.symm⟩
  rw [if_neg h2] at h
  by_cases h3 : op = ("set0").data
  case pos => rw [if_pos h3] at h; injection h with hx; exact ⟨_, hx.symm⟩
  rw [if_neg h3] at h
  by_cases h4 : op = ("set1").data
  case pos => rw [if_pos h4] at h; injection h with hx; exact ⟨_, hx.symm⟩
  rw [if_neg h4] at h
  by_cases h5 : op = ("set3").data
  case pos => rw [if_pos h5] at h; injection h with hx; exact ⟨_, hx.symm⟩
  rw [if_neg h5] at h
  by_cases h6 : op = ("set2").data
  case pos => rw [if_pos h6] at h; injection h with hx; exact ⟨_, hx.symm⟩
  rw [if_neg h6] at h
  by_cases h7 : op = ("call").data
  case pos => rw [if_pos h7] at h; injection h with hx; exact ⟨_, hx.symm⟩
  rw [if_neg h7] at h
  by_cases h8 : op = ("jump").data
  case pos => rw [if_pos h8] at h; injection h with hx; exact ⟨_, hx.symm⟩
  rw [if_neg h8] at h
  by_cases h9 : op = ("alu.r").data
  case pos => rw [if_pos h9] at h; injection h with hx; exact ⟨_, hx.symm⟩
  rw [if_neg h9] at h
  by_cases h10 : op = ("add").data
  case pos => rw [if_pos h10] at h; injection h with hx; exact ⟨_, hx.symm⟩
  rw [if_neg h10] at h
  by_cases h11 : op = ("sub").data
  case pos => rw [if_pos h11] at h; injection h with hx; exact ⟨_, hx.symm⟩
  rw [if_neg h11] at h
  by_cases h12 : op = ("subs").data
  case pos => rw [if_pos h12] at h; injection h with hx; exact ⟨_, hx.symm⟩
  rw [if_neg h12] at h
  by_cases h13 : op = ("alur.0xb").data
  case pos => rw [if_pos h13] at h; injection h with hx; exact ⟨_, hx.symm⟩
  rw [if_neg h13] at h
  by_cases h14 : op = ("b.t").data
  case pos => rw [if_pos h14] at h; injection h with hx; exact ⟨_, hx.symm⟩
  rw [if_neg h14] at h
  by_cases h15 : op = ("b.f").data
  case pos => rw [if_pos h15] at h; injection h with hx; exact ⟨_, hx.symm⟩
  rw [if_neg h15] at h
  by_cases h16 : op = ("b.set").data
  case pos => rw [if_pos h16] at h; injection h with hx; exact ⟨_, hx.symm⟩
  rw [if_neg h16] at h
  by_cases h17 : op = ("b.clr").data
  case pos => rw [if_pos h17] at h; injection h with hx; exact ⟨_, hx.symm⟩
  rw [if_neg h17] at h
  by_cases h18 : op = ("ld.d").data
  case pos => rw [if_pos h18] at h; injection h with hx; exact ⟨_, hx.symm⟩
  rw [if_neg h18] at h
  by_cases h19 : op = ("st.d").data
  case pos => rw [if_pos h19] at h; injection h with hx; exact ⟨_, hx.symm⟩
  rw [if_neg h19] at h
  by_cases h20 : op = ("st.q").data
  case pos => rw [if_pos h20] at h; injection h with hx; exact ⟨_, hx.symm⟩
  rw [if_neg h20] at h
  by_cases h21 : op = ("ret.d").data
  case pos => rw [if_pos h21] at h; injection h with hx; exact ⟨_, hx.symm⟩
  rw [if_neg h21] at h
  by_cases h22 : op = ("lbl").data
  case pos => exact absurd h22 hop
  rw [if_neg h22] at h
  exact Option.noConfusion h

theorem st_ok_shape (layout : Str) (ctx : Context) (args : List Str) (ctx2 : Context)
    (h : st layout ctx args = .ok ctx2) :
    ctx2.labels = ctx.labels ∧ ctx2.base = ctx.base ∧
      ∃ w, ctx2.code = ctx.code ++ w ∧ w.length = 4 := by
  unfold st at h
  split at h
  · exact Except.noConfusion h
  · unfold Context.emit at h
    split at h
    · injection h with h2
      subst h2
      exact ⟨rfl, rfl, be32 _, rfl, rfl⟩
    · exact Except.noConfusion h

theorem lbl_ok_shape (ctx : Context) (args : List Str) (ctx2 : Context)
    (h : lbl_func ctx args = .ok ctx2) :
    ctx2.base = ctx.base ∧ ctx2.code = ctx.code := by
  unfold lbl_func at h
  split at h
  · exact Except.noConfusion h
  · split at h
    · split at h
      · injection h with h2; subst h2; exact ⟨rfl, rfl⟩
      · exact Except.noConfusion h
    · injection h with h2; subst h2; exact ⟨rfl, rfl⟩

theorem specEmitted_skip (line : Str)
    (hb : ((strip line).isEmpty || startsHash (strip line)) = true) :
    specEmitted line = false := by
  unfold specEmitted
  rw [hb]
  rfl

theorem specEmitted_mnemonic (line op rest : Str)
    (hbs : breakAtSpace (strip line) = some (op, rest)) :
    specEmitted line =
      (!((strip line).isEmpty || startsHash (strip line)) && decide (op ≠ ("lbl").data)) := by
  unfold specEmitted
  rw [hbs]

theorem processLine_shape (ctx : Context) (line : Str) (ctx2 : Context)
    (h : processLine ctx line = .ok ctx2) :
    ctx2.base = ctx.base ∧
      ∃ w, ctx2.code = ctx.code ++ w ∧ w.length = (if specEmitted line then 4 else 0) := by
  unfold processLine at h
  split at h
  · rename_i hb
    injection h with h2
    subst h2
    exact ⟨rfl, [], by simp, by rw [specEmitted_skip line hb]; rfl⟩
  · rename_i hb
    have hbf : ((strip line).isEmpty || startsHash (strip line)) = false :=
      Bool.not_eq_true _ ▸ hb
    split at h
    · exact Except.noConfusion h
    · rename_i op rest hbs
      split at h
      · exact Except.noConfusion h
      · rename_i f hi
        by_cases hlbl : op = ("lbl").data
        · subst hlbl
          rw [instructions_lbl] at hi
          injection hi with hf
          subst hf
          obtain ⟨hb2, hc2⟩ := lbl_ok_shape ctx _ ctx2 h
          refine ⟨hb2, [], by simp [hc2], ?_⟩
          rw [specEmitted_mnemonic line _ rest hbs]
          simp
        · obtain ⟨l, hf⟩ := instructions_st op f hlbl hi
          subst hf
          obtain ⟨hl2, hb2, w, hc2, hw⟩ := st_ok_shape l ctx _ ctx2 h
          refine ⟨hb2, w, hc2, ?_⟩
          rw [specEmitted_mnemonic line op rest hbs, hbf, hw]
          simp [hlbl]

theorem runLines_shape (lines : List Str) :
    ∀ ctx ctx2, runLines ctx lines = .ok ctx2 →
      ctx2.base = ctx.base ∧
        ctx2.code.length = ctx.code.length + 4 * List.countP specEmitted lines := by
  induction lines with
  | nil =>
    intro ctx ctx2 h
    unfold runLines at h
    injection h with h2
    subst h2
    simp
  | cons l ls ih =>
    intro ctx ctx2 h
    unfold runLines at h
    cases hp : processLine ctx l with
    | error e => rw [hp] at h; exact Except.noConfusion h
    | ok ctxm =>
      rw [hp] at h
      obtain ⟨hb, w, hc, hw⟩ := processLine_shape ctx l ctxm hp
      obtain ⟨hb2, hl2⟩ := ih ctxm ctx2 h
      refine ⟨by rw [hb2, hb], ?_⟩
      rw [hl2, hc, List.length_append, hw, List.countP_cons]
      cases hse : specEmitted l <;> simp [hse] <;> omega

theorem dictInsert_lookup (m : LabelMap) (k : Str) (v : Nat) :
    (dictInsert m k v).lookup k = some v := by
  induction m with
  | nil => simp [dictInsert, List.lookup]
  | cons p rest ih =>
    obtain ⟨k2, v2⟩ := p
    unfold dictInsert
    by_cases hk : k2 = k
    · subst hk
      simp [List.lookup]
    · rw [if_neg hk]
      have hb2 : (k == k2) = false := beq_eq_false_iff_ne.mpr (Ne.symm hk)
      simp only [List.lookup, hb2]
      exact ih

/-- Claim C1, counterexample: for the concrete claimed family member (jump
over three addi instructions to a trailing label, base 0) assembly succeeds
but the low 24 bits of the encoded jump word are 5, not 3: the label sits
16 bytes after the jump, so the rel24 encoder contributes 16 / 4 = 4, and
the unshifted jmpop literal 1 is OR-merged into the same low bits. -/
theorem C1_counterexample :
    assemble c1src 0 = .ok c1bytes ∧
      bytesWord c1bytes 0 % 16777216 = 5 ∧ (5 : Nat) ≠ 3 :=
  ⟨rfl, rfl, by decide⟩

/-- Claim C1 as amended: for that source at base 0 assembly succeeds and
the low 24 bits of the encoded jump word equal 5, the rel24 field
contribution (3 + 1 instructions of 4 bytes, divided by 4, giving 4)
OR-merged with the jmpop literal 1 that shares the low bits; the rel24
encoder itself yields 4 for a label 16 bytes ahead. -/
theorem C1_amended :
    assemble c1src 0 = .ok c1bytes ∧
      bytesWord c1bytes 0 % 16777216 = 5 ∧
      rel24 ⟨[(("end").data, 16)], 0, []⟩ (("end").data) = .ok 4 ∧
      jmpop ⟨[], 0, []⟩ (("0x1").data) = .ok 1 ∧
      bytesWord c1bytes 0 = (0x94000000 ||| 1 ||| 4) :=
  ⟨rfl, rfl, rfl, rfl, rfl⟩

/-- Claim C2: the four-line example assembles at base 0 to exactly 12
bytes, and the low 16 bits of the third word are 0xFFFF, the unsigned
16-bit two's-complement pattern of -1 (the branch goes back one
instruction word). -/
theorem C2_end_to_end :
    assemble c2src 0 = .ok c2bytes ∧
      c2bytes.length = 12 ∧
      bytesWord c2bytes 2 % 65536 = 0xFFFF ∧
      assert_sbits (-1) 16 = .ok 0xFFFF :=
  ⟨rfl, rfl, rfl, rfl⟩

/-- Claim C3: whenever assemble succeeds, the output length is 4 times the
number of lines that are non-blank after trimming, do not start with a
hash, and whose mnemonic is not lbl (specEmitted, written from the words
of the claim); moreover each successfully processed line appends exactly
one 4-byte group when it is such a line and nothing otherwise, so emitted
words sit in source order. -/
theorem C3_output_length :
    (∀ source base bytes, assemble source base = .ok bytes →
      bytes.length = 4 * List.countP specEmitted (splitChar '\n' source)) ∧
    (∀ ctx line ctx2, processLine ctx line = .ok ctx2 →
      ∃ w, ctx2.code = ctx.code ++ w ∧
        w.length = (if specEmitted line then 4 else 0)) := by
  constructor
  · intro source base bytes h
    unfold assemble at h
    split at h
    · exact Except.noConfusion h
    · rename_i ctx1 h1
      split at h
      · exact Except.noConfusion h
      · rename_i ctx2 h2
        injection h with h3
        subst h3
        unfold assemble_pass at h2
        have := runLines_shape (splitChar '\n' source)
          { labels := ctx1.labels, base := base, code := [] } ctx2 h2
        simpa using this.2
  · intro ctx line ctx2 h
    exact (processLine_shape ctx line ctx2 h).2

/-- Witness for C3 at a concrete program with one label line, one comment,
one blank line and two emitted instructions. -/
theorem C3_witness :
    c3bytes.length = 4 * List.countP specEmitted (splitChar '\n' c3src) :=
  C3_output_length.1 c3src 0 c3bytes rfl

/-- Claim C4: assemble is deterministic and keeps no state between
invocations.  assembleG threads the shared default-argument dict of
Context.init explicitly: one call hands the shared dict back unchanged
(first conjunct), so a second call on the same inputs, run after the
first, returns the identical result (second conjunct); on the pristine
default (the empty dict) assembleG computes exactly assemble (third
conjunct). -/
theorem C4_determinism (d : LabelMap) (source : Str) (base : Nat) :
    (assembleG d source base).2 = d ∧
      (assembleG ((assembleG d source base).2) source base).1 =
        (assembleG d source base).1 ∧
      (assembleG [] source base).1 = assemble source base :=
  ⟨rfl, rfl, rfl⟩

/-- Witness for C4 on the concrete C2 program. -/
theorem C4_witness :
    (assembleG [] c2src 0).2 = [] ∧
      (assembleG ((assembleG [] c2src 0).2) c2src 0).1 = (assembleG [] c2src 0).1 ∧
      (assembleG [] c2src 0).1 = assemble c2src 0 :=
  C4_determinism [] c2src 0

/-- Claim C9: after any prefix of lines of an assembly pass (so in every
reachable Context), the current address is the base plus the length of the
accumulated code, and when the pass started from a word-aligned base with
word-aligned code (as both driver passes do, starting empty), the code
length stays a multiple of 4 and the address stays word-aligned. -/
theorem C9_address_invariant (lines : List Str) (ctx0 ctx : Context)
    (hb : ctx0.base % 4 = 0) (hc : ctx0.code.length % 4 = 0)
    (h : runLines ctx0 lines = .ok ctx) :
    ctx.address = ctx.base + ctx.code.length ∧
      ctx.code.length % 4 = 0 ∧ ctx.address % 4 = 0 := by
  obtain ⟨hbase, hlen⟩ := runLines_shape lines ctx0 ctx h
  refine ⟨rfl, by omega, ?_⟩
  unfold Context.address
  omega

/-- Witness for C9: one processed addi line from base 0. -/
theorem C9_witness :
    (⟨[], 0, [0x00, 0x21, 0x00, 0x01]⟩ : Context).address =
        (⟨[], 0, [0x00, 0x21, 0x00, 0x01]⟩ : Context).base +
          (⟨[], 0, [0x00, 0x21, 0x00, 0x01]⟩ : Context).code.length ∧
      (⟨[], 0, [0x00, 0x21, 0x00, 0x01]⟩ : Context).code.length % 4 = 0 ∧
      (⟨[], 0, [0x00, 0x21, 0x00, 0x01]⟩ : Context).address % 4 = 0 :=
  C9_address_invariant [("addi r1, r1, 1").data] ⟨[], 0, []⟩ _ rfl rfl rfl

/-- Claim C10: pass-1 relative-offset validation is not suppressed.  For
the two-line program jump end / lbl end every referenced label is
declared, and a lone pass seeded with the correct label table (end at
base + 4) succeeds at both bases below; yet assemble fails during pass 1,
where the unknown label defaults to address 0: with the unaligned base 1
the placeholder displacement -1 raises AlignmentError, and with base 2^26
the aligned placeholder displacement -2^26 gives a quotient -2^24 outside
the signed 24-bit field, raising FieldRangeError. -/
theorem C10_pass1_validation :
    assemble c10src 1 = .error .AlignmentError ∧
      passOk (assemble_pass ⟨[(("end").data, 5)], 1, []⟩ c10src) = true ∧
      assemble c10src 67108864 = .error .FieldRangeError ∧
      passOk (assemble_pass ⟨[(("end").data, 67108868)], 67108864, []⟩ c10src) = true :=
  ⟨rfl, rfl, rfl, rfl⟩

/-- Claim C5: the simm16 encoder accepts exactly the signed 16-bit range
and returns the unsigned two's-complement pattern (the value mod 2^16, no
shift); textually, 32767 and -32768 encode to 0x7FFF and 0x8000 while
32768 and -32769 fail with FieldRangeError. -/
theorem C5_simm16_range :
    (∀ v : Int, -32768 ≤ v → v < 32768 →
      assert_sbits v 16 = .ok ((v % 65536).toNat)) ∧
    (∀ v : Int, v < -32768 ∨ 32768 ≤ v →
      assert_sbits v 16 = .error .FieldRangeError) ∧
    (∀ ctx, simm16 ctx (("32767").data) = .ok 0x7FFF ∧
      simm16 ctx (("-32768").data) = .ok 0x8000 ∧
      simm16 ctx (("32768").data) = .error .FieldRangeError ∧
      simm16 ctx (("-32769").data) = .error .FieldRangeError) := by
  have e15 : ((2 : Int) ^ (16 - 1)) = 32768 := by decide
  have e16 : ((2 : Int) ^ (16 : Nat)) = 65536 := by decide
  refine ⟨?_, ?_, ?_⟩
  · intro v h1 h2
    unfold assert_sbits
    rw [e15, e16, if_pos ⟨by omega, h2⟩]
  · intro v h
    unfold assert_sbits
    rw [e15, if_neg (by omega)]
  · intro ctx
    exact ⟨rfl, rfl, rfl, rfl⟩

/-- Witness for C5 at the concrete values 5 and 40000 and the concrete
operand text 32767. -/
theorem C5_witness :
    assert_sbits 5 16 = .ok 5 ∧
      assert_sbits 40000 16 = .error .FieldRangeError ∧
      simm16 ⟨[], 0, []⟩ (("32767").data) = .ok 0x7FFF := by
  refine ⟨?_, ?_, ?_⟩
  · rw [C5_simm16_range.1 5 (by decide) (by decide)]
    rfl
  · exact C5_simm16_range.2.1 40000 (Or.inr (by decide))
  · exact (C5_simm16_range.2.2 ⟨[], 0, []⟩).1

/-- Claim C6: the register fields rs, rd and rt fail with
RegisterFormatError when the operand's first character is not r, fail
with FieldRangeError when the register number after the r is outside
0..31, and otherwise place the number at bits 21, 16 and 11. -/
theorem C6_register_fields (ctx : Context) :
    (∀ c rest, c ≠ 'r' →
      rs ctx (c :: rest) = .error .RegisterFormatError ∧
      rd ctx (c :: rest) = .error .RegisterFormatError ∧
      rt ctx (c :: rest) = .error .RegisterFormatError) ∧
    (∀ ds v, pyIntDec? ds = some v → ¬(0 ≤ v ∧ v < 32) →
      rs ctx ('r' :: ds) = .error .FieldRangeError ∧
      rd ctx ('r' :: ds) = .error .FieldRangeError ∧
      rt ctx ('r' :: ds) = .error .FieldRangeError) ∧
    (∀ ds v, pyIntDec? ds = some v → 0 ≤ v → v < 32 →
      rs ctx ('r' :: ds) = .ok (v.toNat <<< 21) ∧
      rd ctx ('r' :: ds) = .ok (v.toNat <<< 16) ∧
      rt ctx ('r' :: ds) = .ok (v.toNat <<< 11)) := by
  have e5 : ((2 : Int) ^ (5 : Nat)) = 32 := by decide
  have hreg1 : ∀ c rest, c ≠ 'r' →
      reg ctx (c :: rest) = .error .RegisterFormatError := by
    intro c rest hc
    simp only [reg]
    rw [if_neg hc]
  have hreg2 : ∀ ds v, pyIntDec? ds = some v → ¬(0 ≤ v ∧ v < 32) →
      reg ctx ('r' :: ds) = .error .FieldRangeError := by
    intro ds v hv hr
    simp only [reg, hv]
    rw [if_pos trivial]
    unfold assert_ubits
    rw [e5, if_neg hr]
  have hreg3 : ∀ ds v, pyIntDec? ds = some v → 0 ≤ v → v < 32 →
      reg ctx ('r' :: ds) = .ok v.toNat := by
    intro ds v hv h0 h32
    simp only [reg, hv]
    rw [if_pos trivial]
    unfold assert_ubits
    rw [e5, if_pos ⟨h0, h32⟩]
  refine ⟨?_, ?_, ?_⟩
  · intro c rest hc
    have h := hreg1 c rest hc
    exact ⟨by unfold rs; rw [h]; rfl, by unfold rd; rw [h]; rfl,
      by unfold rt; rw [h]; rfl⟩
  · intro ds v hv hr
    have h := hreg2 ds v hv hr
    exact ⟨by unfold rs; rw [h]; rfl, by unfold rd; rw [h]; rfl,
      by unfold rt; rw [h]; rfl⟩
  · intro ds v hv h0 h32
    have h := hreg3 ds v hv h0 h32
    exact ⟨by unfold rs; rw [h]; rfl, by unfold rd; rw [h]; rfl,
      by unfold rt; rw [h]; rfl⟩

/-- Witness for C6 at the concrete operands x1, r32 and r5. -/
theorem C6_witness :
    rs ⟨[], 0, []⟩ (("x1").data) = .error .RegisterFormatError ∧
      rd ⟨[], 0, []⟩ (("r32").data) = .error .FieldRangeError ∧
      rt ⟨[], 0, []⟩ (("r5").data) = .ok (5 <<< 11) := by
  refine ⟨?_, ?_, ?_⟩
  · exact ((C6_register_fields ⟨[], 0, []⟩).1 'x' (("1").data) (by decide)).1
  · exact ((C6_register_fields ⟨[], 0, []⟩).2.1 (("32").data) 32 rfl (by decide)).2.1
  · exact ((C6_register_fields ⟨[], 0, []⟩).2.2 (("5").data) 5 rfl (by decide) (by decide)).2.2

/-- Claim C7: the rel16 and rel24 encoders fail with AlignmentError
whenever the displacement from the current address to the (defaulted)
label address is not a multiple of 4, regardless of field width; on an
aligned displacement 4q they return the two's-complement pattern of q,
failing with FieldRangeError exactly when q falls outside the signed
16-bit or 24-bit range. -/
theorem C7_rel_alignment (ctx : Context) (arg : Str) :
    (((labelsGet ctx.labels arg : Int) - (ctx.address : Int)) % 4 ≠ 0 →
      rel16 ctx arg = .error .AlignmentError ∧
      rel24 ctx arg = .error .AlignmentError) ∧
    (∀ q : Int, (labelsGet ctx.labels arg : Int) - (ctx.address : Int) = 4 * q →
      (rel16 ctx arg =
        if -32768 ≤ q ∧ q < 32768 then .ok ((q % 65536).toNat)
        else .error .FieldRangeError) ∧
      (rel24 ctx arg =
        if -8388608 ≤ q ∧ q < 8388608 then .ok ((q % 16777216).toNat)
        else .error .FieldRangeError)) := by
  have e15 : ((2 : Int) ^ (16 - 1)) = 32768 := by decide
  have e16 : ((2 : Int) ^ (16 : Nat)) = 65536 := by decide
  have e23 : ((2 : Int) ^ (24 - 1)) = 8388608 := by decide
  have e24 : ((2 : Int) ^ (24 : Nat)) = 16777216 := by decide
  constructor
  · intro hne
    constructor
    · unfold rel16
      rw [if_neg hne]
    · unfold rel24
      rw [if_neg hne]
  · intro q hq
    have hmod : ((4 : Int) * q) % 4 = 0 := Int.mul_emod_right 4 q
    have hdiv : ((4 : Int) * q).fdiv 4 = q := Int.mul_fdiv_cancel_left q (by norm_num)
    constructor
    · unfold rel16
      rw [hq, if_pos hmod, hdiv]
      unfold assert_sbits
      rw [e15, e16]
    · unfold rel24
      rw [hq, if_pos hmod, hdiv]
      unfold assert_sbits
      rw [e23, e24]

/-- Witness for C7: a label 2 bytes ahead trips the alignment check, one 8
bytes ahead encodes as quotient 2. -/
theorem C7_witness :
    (rel16 ⟨[(("x").data, 2)], 0, []⟩ (("x").data) = .error .AlignmentError ∧
      rel24 ⟨[(("x").data, 2)], 0, []⟩ (("x").data) = .error .AlignmentError) ∧
      rel16 ⟨[(("y").data, 8)], 0, []⟩ (("y").data) = .ok 2 := by
  constructor
  · exact (C7_rel_alignment ⟨[(("x").data, 2)], 0, []⟩ (("x").data)).1 (by decide)
  · have h := ((C7_rel_alignment ⟨[(("y").data, 8)], 0, []⟩ (("y").data)).2 2 (by decide)).1
    rw [h]
    rfl

/-- Claim C8: the lbl pseudo-instruction succeeds and changes nothing when
the name is already bound to the current address, fails with
LabelRedefinitionError when it is bound to a different address, and binds
the name to the current address when it is absent. -/
theorem C8_lbl_semantics (ctx : Context) (name : Str) (rest : List Str) :
    (List.lookup name ctx.labels = some ctx.address →
      lbl_func ctx (name :: rest) = .ok ctx) ∧
    (∀ a, List.lookup name ctx.labels = some a → a ≠ ctx.address →
      lbl_func ctx (name :: rest) = .error .LabelRedefinitionError) ∧
    (List.lookup name ctx.labels = none →
      lbl_func ctx (name :: rest) =
        .ok { ctx with labels := dictInsert ctx.labels name ctx.address } ∧
      List.lookup name (dictInsert ctx.labels name ctx.address) =
        some ctx.address) := by
  refine ⟨?_, ?_, ?_⟩
  · intro h
    simp only [lbl_func, h]
    rw [if_pos trivial]
  · intro a h hne
    simp only [lbl_func, h]
    rw [if_neg hne]
  · intro h
    exact ⟨by simp only [lbl_func, h], dictInsert_lookup ctx.labels name ctx.address⟩

/-- Witness for C8 at a one-entry table: rebinding at the same address,
rebinding at a different address, and a fresh binding. -/
theorem C8_witness :
    lbl_func ⟨[(("a").data, 0)], 0, []⟩ [("a").data] = .ok ⟨[(("a").data, 0)], 0, []⟩ ∧
      lbl_func ⟨[(("a").data, 4)], 0, []⟩ [("a").data] = .error .LabelRedefinitionError ∧
      lbl_func ⟨[], 0, []⟩ [("a").data] =
        .ok { labels := dictInsert [] (("a").data) 0, base := 0, code := [] } := by
  refine ⟨?_, ?_, ?_⟩
  · exact (C8_lbl_semantics ⟨[(("a").data, 0)], 0, []⟩ (("a").data) []).1 rfl
  · exact (C8_lbl_semantics ⟨[(("a").data, 4)], 0, []⟩ (("a").data) []).2.1 4 rfl (by decide)
  · exact ((C8_lbl_semantics ⟨[], 0, []⟩ (("a").data) []).2.2 rfl).1

end IriscAsm
